import Mathlib

/-!
Verification development for the query-planning and WHERE-clause compilation
core (src/core/translate/where_clause.rs and src/core/translate/plan.rs).
The Rust source is shallowly embedded: pure functions become Lean functions,
the mutable ProgramBuilder becomes explicit state passing, fallible code
returns Except, and a Rust panic (todo or a failed assertion) is modelled by
a dedicated result constructor.
-/

namespace Limbo

/-! AST (sqlite3_parser::ast), restricted to the shapes this core consumes -/

namespace ast

inductive LikeOperator where
  | Like
  | Glob
  | Match
  | Regexp
deriving Repr, DecidableEq

inductive Operator where
  | And
  | Or
  | Equals
  | NotEquals
  | Less
  | LessEquals
  | Greater
  | GreaterEquals
  | Is
  | IsNot
  | Add
deriving Repr, DecidableEq

inductive Literal where
  | Numeric (val : String)
  | Str (val : String)
  | Null
deriving Repr, DecidableEq

inductive Expr where
  | Binary (lhs : Expr) (op : Operator) (rhs : Expr)
  | Id (name : String)
  | Qualified (tbl : String) (name : String)
  | Literal (lit : Literal)
  | Like (lhs : Expr) (nt : Bool) (op : LikeOperator) (rhs : Expr) (escape : Option Expr)
  | FunctionCall (name : String) (args : Option (List Expr))
  | InList (lhs : Expr) (nt : Bool) (rhs : Option (List Expr))
  | Between (lhs : Expr) (nt : Bool) (start : Expr) (stop : Expr)
deriving Repr

end ast

/-! Loops, source tables and the Select (interfaces of translate/select.rs) -/

/-- Modelled from the spec: LoopInfo (translate/select.rs, not under src/).
Section 4.6 gives the loop interface the core requires: each loop exposes
an open cursor id, an identifier (table alias) and a next-row label. -/
structure LoopInfo where
  identifier : String
  open_cursor : Nat
  next_row_label : Nat
deriving Repr, DecidableEq

inductive JoinConstraint where
  | On (e : ast.Expr)
  | Using (cols : List String)
deriving Repr

structure JoinInfo where
  constraint : Option JoinConstraint
deriving Repr

/-- Modelled from the spec: the FROM-entry shape (translate/select.rs, not under
src/) consumed by process_where: an identifier (alias), the owned table's column
names (for identifier resolution, section 4.2), optional join info and the
is_outer_join flag. -/
structure SrcTable where
  identifier : String
  columns : List String
  join_info : Option JoinInfo
  is_outer_join : Bool
deriving Repr

/-- Modelled from the spec: the Select shape (translate/select.rs, not under
src/) as consumed by the WHERE compiler: the loops, the FROM entries and the
optional WHERE clause. -/
structure Select where
  loops : List LoopInfo
  src_tables : List SrcTable
  where_clause : Option ast.Expr
deriving Repr

/-- Modelled from the spec: normalize_ident (util.rs, not under src/):
lowercase ASCII with surrounding identifier quotes removed. -/
def normalize_ident (s : String) : String :=
  let s := if s.startsWith "\"" && s.endsWith "\"" then (s.drop 1).dropRight 1 else s
  s.toLower

/-- Modelled from the spec: resolve_ident_table (translate/expr.rs, not under
src/). Section 4.2: a bare identifier is resolved by scanning the referenced
tables for those whose columns contain the normalized name; zero matches is a
column-not-found error, more than one an ambiguous-column error, exactly one
yields that table, whose open cursor is returned. -/
def resolve_ident_table (sel : Select) (ident0 : String) : Except String Nat :=
  let ident := normalize_ident ident0
  match sel.src_tables.filter (fun t => t.columns.contains ident) with
  | [t] =>
      match sel.loops.find? (fun l => l.identifier == t.identifier) with
      | some l => Except.ok l.open_cursor
      | none => Except.error ("Could not find cursor for table " ++ t.identifier)
  | [] => Except.error ("column not found: " ++ ident)
  | _ => Except.error ("ambiguous column name " ++ ident)

/-- Modelled from the spec: resolve_ident_qualified (translate/expr.rs, not
under src/). Section 4.2: a qualified identifier t.x is resolved to the unique
entry whose alias equals t; missing alias is a table-not-found error, a missing
column a qualified-column-not-found error; the open cursor of the matching
loop is returned. -/
def resolve_ident_qualified (sel : Select) (tbl0 : String) (ident0 : String) :
    Except String Nat :=
  let tbl := normalize_ident tbl0
  let ident := normalize_ident ident0
  match sel.src_tables.find? (fun t => t.identifier == tbl) with
  | none => Except.error ("table not found: " ++ tbl)
  | some t =>
      if t.columns.contains ident then
        match sel.loops.find? (fun l => l.identifier == t.identifier) with
        | some l => Except.ok l.open_cursor
        | none => Except.error ("Could not find cursor for table " ++ t.identifier)
      else
        Except.error ("column with qualified name " ++ tbl ++ "." ++ ident ++ " not found")

/-! WhereTerm and the AND splitter (where_clause.rs) -/

structure WhereTerm where
  expr : ast.Expr
  evaluate_at_cursor : Nat
deriving Repr

structure ProcessedWhereClause where
  terms : List WhereTerm
deriving Repr

mutual

/-- introspect_expression_for_cursors (where_clause.rs lines 670 to 750):
collect the cursor ids referenced by an expression, structural recursion in
the order of the source. -/
def introspect_expression_for_cursors (sel : Select) : ast.Expr → Except String (List Nat)
  | ast.Expr.Binary e1 _ e2 => do
      pure ((← introspect_expression_for_cursors sel e1) ++
        (← introspect_expression_for_cursors sel e2))
  | ast.Expr.Id ident => do
      pure [← resolve_ident_table sel ident]
  | ast.Expr.Qualified tbl ident => do
      pure [← resolve_ident_qualified sel tbl ident]
  | ast.Expr.Literal _ => pure []
  | ast.Expr.Like lhs _ _ rhs _ => do
      pure ((← introspect_expression_for_cursors sel lhs) ++
        (← introspect_expression_for_cursors sel rhs))
  | ast.Expr.FunctionCall _ (some args) => introspect_list sel args
  | ast.Expr.FunctionCall _ none => pure []
  | ast.Expr.InList lhs _ rhs => do
      let c ← introspect_expression_for_cursors sel lhs
      match rhs with
      | some rs => do pure (c ++ (← introspect_list sel rs))
      | none => pure c
  | _ => pure []

/-- Cursor collection over an argument list, in order. -/
def introspect_list (sel : Select) : List ast.Expr → Except String (List Nat)
  | [] => pure []
  | e :: es => do
      pure ((← introspect_expression_for_cursors sel e) ++ (← introspect_list sel es))

end

/-- The evaluate_at_cursor computation in the loop body of
split_constraint_to_terms (where_clause.rs lines 51 to 100): with an
outer-join table name the cursor of the loop with that identifier, otherwise
the maximum introspected cursor, defaulting to the minimum open cursor over
all loops. -/
def where_term_cursor (sel : Select) (outer : Option String) (e : ast.Expr) :
    Except String Nat :=
  match outer with
  | some table =>
      match sel.loops.find? (fun t => t.identifier == table) with
      | some l => Except.ok l.open_cursor
      | none => Except.error ("Could not find cursor for table " ++ table)
  | none =>
      match introspect_expression_for_cursors sel e with
      | Except.error msg => Except.error msg
      | Except.ok cursors =>
          match (sel.loops.map (fun t => t.open_cursor)).min? with
          | none => Except.error "No open cursors found in any of the loops"
          | some outermost => Except.ok (cursors.max?.getD outermost)

/-- The worklist loop of split_constraint_to_terms (where_clause.rs lines 40
to 105). The Rust Vec used as a stack is represented with its top as the list
head: pushing left then right makes right the new top, so an AND node is
replaced by (right, left, rest of the stack). -/
def split_go (sel : Select) (outer : Option String) :
    List ast.Expr → List WhereTerm → Except String (List WhereTerm)
  | [], acc => Except.ok acc
  | ast.Expr.Binary l ast.Operator.And r :: rest, acc =>
      split_go sel outer (r :: l :: rest) acc
  | e :: rest, acc =>
      match where_term_cursor sel outer e with
      | Except.error msg => Except.error msg
      | Except.ok c => split_go sel outer rest (acc ++ [⟨e, c⟩])
termination_by st _ => sizeOf st

/-- split_constraint_to_terms (where_clause.rs lines 33 to 108): split a
constraint at AND boundaries into WhereTerms appended to the processed WHERE
clause. The ProgramBuilder parameter of the source is omitted: the modelled
resolvers do not consult it. -/
def split_constraint_to_terms (sel : Select) (pwc : ProcessedWhereClause)
    (e : ast.Expr) (outer_join_table_name : Option String) :
    Except String ProcessedWhereClause := do
  let ts ← split_go sel outer_join_table_name [e] pwc.terms
  pure ⟨ts⟩

/-- process_where (where_clause.rs lines 114 to 144): split the WHERE clause
and every JOIN ON clause, passing the table identifier for outer joins. -/
def process_where (sel : Select) : Except String ProcessedWhereClause := do
  let mut wc : ProcessedWhereClause := ⟨[]⟩
  if let some w := sel.where_clause then
    wc := (← split_constraint_to_terms sel wc w none)
  for table in sel.src_tables do
    match table.join_info with
    | none => pure ()
    | some ji =>
        match ji.constraint with
        | some (JoinConstraint.On e) =>
            wc := (← split_constraint_to_terms sel wc e
              (if table.is_outer_join then some table.identifier else none))
        | _ => pure ()
  pure wc

/-! VM instructions and the ProgramBuilder (vdbe, modelled from the spec) -/

inductive ScalarFunc where
  | Like
deriving Repr, DecidableEq

/-- The VM instruction subset used by this core (spec section 6). The target
of a branch instruction holds the label id it depends on. EvalExpr is the
abstract instruction emitted by the modelled translate_expr. -/
inductive Insn where
  | Integer (value : Int) (dest : Nat)
  | String8 (value : String) (dest : Nat)
  | Eq (lhs : Nat) (rhs : Nat) (target_pc : Nat)
  | Ne (lhs : Nat) (rhs : Nat) (target_pc : Nat)
  | Lt (lhs : Nat) (rhs : Nat) (target_pc : Nat)
  | Le (lhs : Nat) (rhs : Nat) (target_pc : Nat)
  | Gt (lhs : Nat) (rhs : Nat) (target_pc : Nat)
  | Ge (lhs : Nat) (rhs : Nat) (target_pc : Nat)
  | If (reg : Nat) (target_pc : Nat) (null_reg : Nat)
  | IfNot (reg : Nat) (target_pc : Nat) (null_reg : Nat)
  | Goto (target_pc : Nat)
  | Function (func : ScalarFunc) (start_reg : Nat) (dest : Nat)
  | EvalExpr (e : ast.Expr) (dest : Nat)
deriving Repr

/-- One emitted instruction together with its recorded label dependency and
its compile-time-constant mark. -/
structure PInsn where
  insn : Insn
  label_dep : Option Nat
  constant : Bool
deriving Repr

/-- Modelled from the spec: ProgramBuilder (vdbe/builder.rs, not under src/),
per the contract table in spec section 6: monotonic register and label
allocation, appended instructions with optional label dependencies, label
resolutions recorded as (label, offset) pairs. -/
structure ProgramBuilder where
  insns : List PInsn := []
  next_reg : Nat := 0
  next_label : Nat := 0
  resolved_labels : List (Nat × Nat) := []
deriving Repr

/-- Modelled from the spec: alloc_register returns a fresh monotonic register id. -/
def ProgramBuilder.alloc_register (pb : ProgramBuilder) : Nat × ProgramBuilder :=
  (pb.next_reg, { pb with next_reg := pb.next_reg + 1 })

/-- Modelled from the spec: allocate_label returns a fresh opaque label. -/
def ProgramBuilder.allocate_label (pb : ProgramBuilder) : Nat × ProgramBuilder :=
  (pb.next_label, { pb with next_label := pb.next_label + 1 })

/-- Modelled from the spec: offset returns the index of the next instruction
to be emitted. -/
def ProgramBuilder.offset (pb : ProgramBuilder) : Nat :=
  pb.insns.length

/-- Modelled from the spec: emit_insn appends an instruction with no label
dependency. -/
def ProgramBuilder.emit_insn (pb : ProgramBuilder) (i : Insn) : ProgramBuilder :=
  { pb with insns := pb.insns ++ [⟨i, none, false⟩] }

/-- Modelled from the spec: emit_insn_with_label_dependency appends an
instruction and records its forward reference to a label. -/
def ProgramBuilder.emit_insn_with_label_dependency (pb : ProgramBuilder)
    (i : Insn) (l : Nat) : ProgramBuilder :=
  { pb with insns := pb.insns ++ [⟨i, some l, false⟩] }

/-- Modelled from the spec: resolve_label binds a label to the given offset. -/
def ProgramBuilder.resolve_label (pb : ProgramBuilder) (l : Nat) (off : Nat) :
    ProgramBuilder :=
  { pb with resolved_labels := pb.resolved_labels ++ [(l, off)] }

/-- Modelled from the spec: mark_last_insn_constant marks the previously
emitted instruction as hoistable. -/
def ProgramBuilder.mark_last_insn_constant (pb : ProgramBuilder) : ProgramBuilder :=
  { pb with insns :=
      pb.insns.dropLast ++
        (match pb.insns.getLast? with
         | some x => [{ x with constant := true }]
         | none => []) }

/-- Modelled from the spec: translate_expr (translate/expr.rs, not under src/)
is treated as an infallible emitter of a single abstract instruction that
evaluates the expression into the destination register. -/
def translate_expr (sel : Select) (hint : Option Nat) (e : ast.Expr) (dest : Nat)
    (pb : ProgramBuilder) : ProgramBuilder :=
  let _ := sel
  let _ := hint
  pb.emit_insn (Insn.EvalExpr e dest)

/-! Condition compilation (where_clause.rs lines 209 to 668) -/

structure ConditionMetadata where
  jump_if_condition_is_true : Bool
  jump_target_when_true : Nat
  jump_target_when_false : Nat
deriving Repr, DecidableEq

/-- Result of translate_condition_expr: ok or a recoverable error correspond
to the Rust Result; panicked models a Rust panic (todo or a failed assert),
which propagates past the discarding let bindings of the source. -/
inductive TRes where
  | ok
  | err (msg : String)
  | panicked (msg : String)
deriving Repr, DecidableEq

/-- The IN-list emission loop of translate_condition_expr (where_clause.rs
lines 527 to 552): every element but the last compares Eq against the local
truth target, the last compares Ne against the false target. -/
def in_list_go (sel : Select) (hint : Option Nat) (lhs_reg : Nat) (jtt : Nat)
    (jfalse : Nat) : List ast.Expr → ProgramBuilder → ProgramBuilder
  | [], pb => pb
  | [last], pb =>
      let (r, pb1) := pb.alloc_register
      let pb2 := translate_expr sel hint last r pb1
      pb2.emit_insn_with_label_dependency (Insn.Ne lhs_reg r jfalse) jfalse
  | e :: rest, pb =>
      let (r, pb1) := pb.alloc_register
      let pb2 := translate_expr sel hint e r pb1
      let pb3 := pb2.emit_insn_with_label_dependency (Insn.Eq lhs_reg r jtt) jtt
      in_list_go sel hint lhs_reg jtt jfalse rest pb3

/-- The NOT-IN-list emission loop of translate_condition_expr (where_clause.rs
lines 565 to 576): every element compares Eq against the false target. -/
def not_in_list_go (sel : Select) (hint : Option Nat) (lhs_reg : Nat)
    (jfalse : Nat) : List ast.Expr → ProgramBuilder → ProgramBuilder
  | [], pb => pb
  | e :: rest, pb =>
      let (r, pb1) := pb.alloc_register
      let pb2 := translate_expr sel hint e r pb1
      let pb3 := pb2.emit_insn_with_label_dependency (Insn.Eq lhs_reg r jfalse) jfalse
      not_in_list_go sel hint lhs_reg jfalse rest pb3

/-- The i64 parse used for numeric condition literals (where_clause.rs line
406): a signed decimal parse restricted to the 64-bit range. -/
def parse_i64 (s : String) : Option Int :=
  match s.toInt? with
  | some n => if -(2 ^ 63) ≤ n ∧ n < 2 ^ 63 then some n else none
  | none => none

/-- translate_condition_expr (where_clause.rs lines 216 to 668). The Rust
signature is (program, select, expr, cursor_hint, condition_metadata) with the
program mutated in place; here the builder is threaded explicitly and the
result status is returned alongside it. -/
def translate_condition_expr (sel : Select) (hint : Option Nat) :
    ast.Expr → ConditionMetadata → ProgramBuilder → ProgramBuilder × TRes
  | ast.Expr.Between _ _ _ _, _, pb => (pb, TRes.panicked "not yet implemented")
  | ast.Expr.Binary lhs ast.Operator.And rhs, cm, pb =>
      let (pb1, r1) := translate_condition_expr sel hint lhs
        { cm with jump_if_condition_is_true := false } pb
      (match r1 with
       | TRes.panicked m => (pb1, TRes.panicked m)
       | _ =>
          let (pb2, r2) := translate_condition_expr sel hint rhs cm pb1
          match r2 with
          | TRes.panicked m => (pb2, TRes.panicked m)
          | _ => (pb2, TRes.ok))
  | ast.Expr.Binary lhs ast.Operator.Or rhs, cm, pb =>
      let (jump_target_when_false, pb1) := pb.allocate_label
      let (pb2, r1) := translate_condition_expr sel hint lhs
        { cm with jump_if_condition_is_true := true,
                  jump_target_when_false := jump_target_when_false } pb1
      (match r1 with
       | TRes.panicked m => (pb2, TRes.panicked m)
       | _ =>
          let pb3 := pb2.resolve_label jump_target_when_false pb2.offset
          let (pb4, r2) := translate_condition_expr sel hint rhs cm pb3
          match r2 with
          | TRes.panicked m => (pb4, TRes.panicked m)
          | _ => (pb4, TRes.ok))
  | ast.Expr.Binary lhs op rhs, cm, pb =>
      let (lhs_reg, pb1) := pb.alloc_register
      let (rhs_reg, pb2) := pb1.alloc_register
      let pb3 := translate_expr sel hint lhs lhs_reg pb2
      let pb4 := match lhs with
        | ast.Expr.Literal _ => pb3.mark_last_insn_constant
        | _ => pb3
      let pb5 := translate_expr sel hint rhs rhs_reg pb4
      let pb6 := match rhs with
        | ast.Expr.Literal _ => pb5.mark_last_insn_constant
        | _ => pb5
      (match op with
       | ast.Operator.Greater =>
          if cm.jump_if_condition_is_true then
            (pb6.emit_insn_with_label_dependency
              (Insn.Gt lhs_reg rhs_reg cm.jump_target_when_true)
              cm.jump_target_when_true, TRes.ok)
          else
            (pb6.emit_insn_with_label_dependency
              (Insn.Le lhs_reg rhs_reg cm.jump_target_when_false)
              cm.jump_target_when_false, TRes.ok)
       | ast.Operator.GreaterEquals =>
          if cm.jump_if_condition_is_true then
            (pb6.emit_insn_with_label_dependency
              (Insn.Ge lhs_reg rhs_reg cm.jump_target_when_true)
              cm.jump_target_when_true, TRes.ok)
          else
            (pb6.emit_insn_with_label_dependency
              (Insn.Lt lhs_reg rhs_reg cm.jump_target_when_false)
              cm.jump_target_when_false, TRes.ok)
       | ast.Operator.Less =>
          if cm.jump_if_condition_is_true then
            (pb6.emit_insn_with_label_dependency
              (Insn.Lt lhs_reg rhs_reg cm.jump_target_when_true)
              cm.jump_target_when_true, TRes.ok)
          else
            (pb6.emit_insn_with_label_dependency
              (Insn.Ge lhs_reg rhs_reg cm.jump_target_when_false)
              cm.jump_target_when_false, TRes.ok)
       | ast.Operator.LessEquals =>
          if cm.jump_if_condition_is_true then
            (pb6.emit_insn_with_label_dependency
              (Insn.Le lhs_reg rhs_reg cm.jump_target_when_true)
              cm.jump_target_when_true, TRes.ok)
          else
            (pb6.emit_insn_with_label_dependency
              (Insn.Gt lhs_reg rhs_reg cm.jump_target_when_false)
              cm.jump_target_when_false, TRes.ok)
       | ast.Operator.Equals =>
          if cm.jump_if_condition_is_true then
            (pb6.emit_insn_with_label_dependency
              (Insn.Eq lhs_reg rhs_reg cm.jump_target_when_true)
              cm.jump_target_when_true, TRes.ok)
          else
            (pb6.emit_insn_with_label_dependency
              (Insn.Ne lhs_reg rhs_reg cm.jump_target_when_false)
              cm.jump_target_when_false, TRes.ok)
       | ast.Operator.NotEquals =>
          if cm.jump_if_condition_is_true then
            (pb6.emit_insn_with_label_dependency
              (Insn.Ne lhs_reg rhs_reg cm.jump_target_when_true)
              cm.jump_target_when_true, TRes.ok)
          else
            (pb6.emit_insn_with_label_dependency
              (Insn.Eq lhs_reg rhs_reg cm.jump_target_when_false)
              cm.jump_target_when_false, TRes.ok)
       | ast.Operator.Is => (pb6, TRes.panicked "not yet implemented")
       | ast.Operator.IsNot => (pb6, TRes.panicked "not yet implemented")
       | _ => (pb6, TRes.panicked "op not implemented"))
  | ast.Expr.Literal lit, cm, pb =>
      (match lit with
       | ast.Literal.Numeric val =>
          match parse_i64 val with
          | some int_value =>
              let (reg, pb1) := pb.alloc_register
              let pb2 := pb1.emit_insn (Insn.Integer int_value reg)
              if cm.jump_if_condition_is_true then
                (pb2.emit_insn_with_label_dependency
                  (Insn.If reg cm.jump_target_when_true reg)
                  cm.jump_target_when_true, TRes.ok)
              else
                (pb2.emit_insn_with_label_dependency
                  (Insn.IfNot reg cm.jump_target_when_false reg)
                  cm.jump_target_when_false, TRes.ok)
          | none => (pb, TRes.err "unsupported literal type in condition")
       | ast.Literal.Str s =>
          let (reg, pb1) := pb.alloc_register
          let pb2 := pb1.emit_insn (Insn.String8 s reg)
          if cm.jump_if_condition_is_true then
            (pb2.emit_insn_with_label_dependency
              (Insn.If reg cm.jump_target_when_true reg)
              cm.jump_target_when_true, TRes.ok)
          else
            (pb2.emit_insn_with_label_dependency
              (Insn.IfNot reg cm.jump_target_when_false reg)
              cm.jump_target_when_false, TRes.ok)
       | _ => (pb, TRes.panicked "literal not implemented"))
  | ast.Expr.InList lhs nt rhs, cm, pb =>
      let (lhs_reg, pb1) := pb.alloc_register
      let pb2 := translate_expr sel hint lhs lhs_reg pb1
      (match rhs with
       | none =>
          if nt then
            if cm.jump_if_condition_is_true then
              (pb2.emit_insn_with_label_dependency
                (Insn.Goto cm.jump_target_when_true) cm.jump_target_when_true,
                TRes.ok)
            else
              (pb2, TRes.ok)
          else
            (pb2.emit_insn_with_label_dependency
              (Insn.Goto cm.jump_target_when_false) cm.jump_target_when_false,
              TRes.ok)
       | some rs =>
          let (jump_target_when_true, pb3) :=
            if cm.jump_if_condition_is_true then (cm.jump_target_when_true, pb2)
            else pb2.allocate_label
          let pb4 :=
            if !nt then
              let pbA := in_list_go sel hint lhs_reg jump_target_when_true
                cm.jump_target_when_false rs pb3
              if cm.jump_if_condition_is_true then
                pbA.emit_insn_with_label_dependency
                  (Insn.Goto cm.jump_target_when_true) cm.jump_target_when_true
              else pbA
            else
              let pbA := not_in_list_go sel hint lhs_reg
                cm.jump_target_when_false rs pb3
              if cm.jump_if_condition_is_true then
                pbA.emit_insn_with_label_dependency
                  (Insn.Goto cm.jump_target_when_true) cm.jump_target_when_true
              else pbA
          let pb5 :=
            if !cm.jump_if_condition_is_true then
              pb4.resolve_label jump_target_when_true pb4.offset
            else pb4
          (pb5, TRes.ok))
  | ast.Expr.Like lhs nt lop rhs _, cm, pb =>
      let (cur_reg, pb1) := pb.alloc_register
      (match rhs with
       | ast.Expr.Literal _ =>
          (match lop with
           | ast.LikeOperator.Like =>
              let (pattern_reg, pb2) := pb1.alloc_register
              let (column_reg, pb3) := pb2.alloc_register
              let pb4 := translate_expr sel hint rhs pattern_reg pb3
              let pb5 := pb4.mark_last_insn_constant
              let pb6 := translate_expr sel hint lhs column_reg pb5
              let pb7 := pb6.emit_insn (Insn.Function ScalarFunc.Like pattern_reg cur_reg)
              if !nt then
                if cm.jump_if_condition_is_true then
                  (pb7.emit_insn_with_label_dependency
                    (Insn.If cur_reg cm.jump_target_when_true cur_reg)
                    cm.jump_target_when_true, TRes.ok)
                else
                  (pb7.emit_insn_with_label_dependency
                    (Insn.IfNot cur_reg cm.jump_target_when_false cur_reg)
                    cm.jump_target_when_false, TRes.ok)
              else
                if cm.jump_if_condition_is_true then
                  (pb7.emit_insn_with_label_dependency
                    (Insn.IfNot cur_reg cm.jump_target_when_true cur_reg)
                    cm.jump_target_when_true, TRes.ok)
                else
                  (pb7.emit_insn_with_label_dependency
                    (Insn.If cur_reg cm.jump_target_when_false cur_reg)
                    cm.jump_target_when_false, TRes.ok)
           | _ => (pb1, TRes.panicked "not yet implemented"))
       | _ => (pb1, TRes.panicked "assertion failed"))
  | _, _, pb => (pb, TRes.panicked "op not implemented")

/-! Plan model (plan.rs) -/

/-- BTreeTable (schema.rs, external collaborator): a name and an ordered list
of column names. -/
structure BTreeTable where
  name : String
  columns : List String
deriving Repr, DecidableEq

/-- Modelled from the spec: BTreeTable.get_column (schema.rs, not under src/):
lookup of a column by its already-normalized name. -/
def BTreeTable.get_column (t : BTreeTable) (ident : String) : Option String :=
  t.columns.find? (fun c => c == ident)

/-- The match-counting loop in the Id arm of get_table_ref_bitmask_for_ast_expr
(plan.rs lines 411 to 425): walk the matching tables, remembering the last and
counting, bailing with an ambiguous-column error as soon as a second match is
seen; at the end, one remembered match yields its bit, none is a
column-not-found error. -/
def bitmask_id_loop (ident : String) :
    List (Nat × (BTreeTable × String)) → Option (Nat × (BTreeTable × String)) →
    Nat → Except String Nat
  | [], matching_tbl, _ =>
      match matching_tbl with
      | some (i, _) => Except.ok (1 <<< i)
      | none => Except.error ("column not found: " ++ ident)
  | t :: rest, _, num_matches =>
      if num_matches + 1 > 1 then Except.error ("ambiguous column name " ++ ident)
      else bitmask_id_loop ident rest (some t) (num_matches + 1)

mutual

/-- get_table_ref_bitmask_for_ast_expr (plan.rs lines 394 to 469): bit i of
the result is contributed by identifiers resolving to referenced-tables
position i; bare identifiers go through the counting loop, qualified ones
through an alias lookup. -/
def get_table_ref_bitmask_for_ast_expr (tables : List (BTreeTable × String)) :
    ast.Expr → Except String Nat
  | ast.Expr.Binary e1 _ e2 => do
      pure ((← get_table_ref_bitmask_for_ast_expr tables e1) |||
        (← get_table_ref_bitmask_for_ast_expr tables e2))
  | ast.Expr.Id ident0 =>
      let ident := normalize_ident ident0
      bitmask_id_loop ident
        ((tables.enum).filter (fun p => (p.2.1.get_column ident).isSome)) none 0
  | ast.Expr.Qualified tbl0 ident0 =>
      let tbl := normalize_ident tbl0
      let ident := normalize_ident ident0
      (match (tables.enum).find? (fun p => p.2.2 == tbl) with
       | none => Except.error ("introspect: table not found: " ++ tbl)
       | some m =>
          if (m.2.1.get_column ident).isSome then Except.ok (1 <<< m.1)
          else Except.error
            ("column with qualified name " ++ tbl ++ "." ++ ident ++ " not found"))
  | ast.Expr.Literal _ => pure 0
  | ast.Expr.Like lhs _ _ rhs _ => do
      pure ((← get_table_ref_bitmask_for_ast_expr tables lhs) |||
        (← get_table_ref_bitmask_for_ast_expr tables rhs))
  | ast.Expr.FunctionCall _ (some args) => bitmask_list tables args
  | ast.Expr.InList lhs _ rhs => do
      let m ← get_table_ref_bitmask_for_ast_expr tables lhs
      match rhs with
      | some rs => do pure (m ||| (← bitmask_list tables rs))
      | none => pure m
  | _ => pure 0

/-- Bitmask accumulation over an argument list, in order. -/
def bitmask_list (tables : List (BTreeTable × String)) :
    List ast.Expr → Except String Nat
  | [] => pure 0
  | e :: es => do
      pure ((← get_table_ref_bitmask_for_ast_expr tables e) |||
        (← bitmask_list tables es))

end

namespace plan

inductive AggFunc where
  | Count
  | Sum
  | Avg
  | Min
  | Max
deriving Repr, DecidableEq

structure Aggregate where
  func : AggFunc
  args : List ast.Expr

inductive Direction where
  | Ascending
  | Descending
deriving Repr, DecidableEq

inductive ProjectionColumn where
  | Column (e : ast.Expr)
  | Star
  | TableStar (table : BTreeTable) (table_alias : String)

/-- Operator (plan.rs lines 32 to 79): a node in the query plan. -/
inductive Operator where
  | Aggregate (id : Nat) (source : Operator) (aggregates : List Aggregate)
  | Filter (id : Nat) (source : Operator) (predicates : List ast.Expr)
  | SeekRowid (id : Nat) (table : BTreeTable) (table_identifier : String)
      (rowid_predicate : ast.Expr) (predicates : Option (List ast.Expr))
  | Limit (id : Nat) (source : Operator) (limit : Nat)
  | Join (id : Nat) (left : Operator) (right : Operator)
      (predicates : Option (List ast.Expr)) (outer : Bool)
  | Order (id : Nat) (source : Operator) (key : List (ast.Expr × Direction))
  | Projection (id : Nat) (source : Operator) (expressions : List ProjectionColumn)
  | Scan (id : Nat) (table : BTreeTable) (table_identifier : String)
      (predicates : Option (List ast.Expr))
  | Nothing

/-- ProjectionColumn.column_count (plan.rs lines 89 to 101): a Column is one
column, Star expands to the sum of all referenced tables' column counts,
TableStar to that table's column count. -/
def ProjectionColumn.column_count (referenced_tables : List (BTreeTable × String)) :
    ProjectionColumn → Nat
  | .Column _ => 1
  | .Star => (referenced_tables.map (fun p => p.1.columns.length)).sum
  | .TableStar table _ => table.columns.length

/-- Operator.column_count (plan.rs lines 105 to 122). -/
def Operator.column_count (referenced_tables : List (BTreeTable × String)) :
    Operator → Nat
  | .Aggregate _ _ aggregates => aggregates.length
  | .Filter _ source _ => Operator.column_count referenced_tables source
  | .SeekRowid _ table _ _ _ => table.columns.length
  | .Limit _ source _ => Operator.column_count referenced_tables source
  | .Join _ left right _ _ =>
      Operator.column_count referenced_tables left +
        Operator.column_count referenced_tables right
  | .Order _ source _ => Operator.column_count referenced_tables source
  | .Projection _ _ expressions =>
      (expressions.map (fun e => ProjectionColumn.column_count referenced_tables e)).sum
  | .Scan _ table _ _ => table.columns.length
  | .Nothing => 0

/-- Operator.column_names (plan.rs lines 124 to 155). The Aggregate arm of the
source is an unconditional todo panic, modelled as none; every other arm
produces its names. -/
def Operator.column_names : Operator → Option (List String)
  | .Aggregate _ _ _ => none
  | .Filter _ source _ => Operator.column_names source
  | .SeekRowid _ table _ _ _ => some table.columns
  | .Limit _ source _ => Operator.column_names source
  | .Join _ left right _ _ => do
      pure ((← Operator.column_names left) ++ (← Operator.column_names right))
  | .Order _ source _ => Operator.column_names source
  | .Projection _ _ expressions =>
      some (expressions.map (fun e =>
        match e with
        | ProjectionColumn.Column (ast.Expr.Id ident) => ident
        | ProjectionColumn.Column (ast.Expr.Qualified tbl ident) => tbl ++ "." ++ ident
        | ProjectionColumn.Column _ => "expr"
        | ProjectionColumn.Star => "*"
        | ProjectionColumn.TableStar _ tbl => tbl ++ "." ++ "*"))
  | .Scan _ table _ _ => some table.columns
  | .Nothing => some []

end plan

/-! Spec-side helper definitions used by the theorems -/

/-- The AND-leaves of an expression in user-visible left-to-right order:
flattening at top-level Binary-AND boundaries. -/
def and_leaves : ast.Expr → List ast.Expr
  | ast.Expr.Binary l ast.Operator.And r => and_leaves l ++ and_leaves r
  | e => [e]

/-- Whether an expression is a literal (used to state the constant-marking of
comparison operands). -/
def is_literal : ast.Expr → Bool
  | ast.Expr.Literal _ => true
  | _ => false

/-- Spec-side negation table for comparison compilation (spec section 4.5):
with the jump-if-true flag the comparison in its natural sense, without it the
negated one, Gt paired with Le, Ge with Lt, Eq with Ne; none for an operator
that is not a binary comparison. -/
def comparison_insn (op : ast.Operator) (jump_if_true : Bool) (l r target : Nat) :
    Option Insn :=
  match op, jump_if_true with
  | ast.Operator.Greater, true => some (Insn.Gt l r target)
  | ast.Operator.Greater, false => some (Insn.Le l r target)
  | ast.Operator.GreaterEquals, true => some (Insn.Ge l r target)
  | ast.Operator.GreaterEquals, false => some (Insn.Lt l r target)
  | ast.Operator.Less, true => some (Insn.Lt l r target)
  | ast.Operator.Less, false => some (Insn.Ge l r target)
  | ast.Operator.LessEquals, true => some (Insn.Le l r target)
  | ast.Operator.LessEquals, false => some (Insn.Gt l r target)
  | ast.Operator.Equals, true => some (Insn.Eq l r target)
  | ast.Operator.Equals, false => some (Insn.Ne l r target)
  | ast.Operator.NotEquals, true => some (Insn.Ne l r target)
  | ast.Operator.NotEquals, false => some (Insn.Eq l r target)
  | _, _ => none

/-- Spec-side description of Binary-OR compilation (spec section 4.5): allocate
a fresh local false label, compile the left operand with the jump-if-true flag
set, the caller's true target kept and the local label as false target, resolve
the local label at the current offset, then compile the right operand with the
caller's metadata unchanged. Only the builder component is described. -/
def or_compile_spec (sel : Select) (hint : Option Nat) (lhs rhs : ast.Expr)
    (cm : ConditionMetadata) (pb : ProgramBuilder) : ProgramBuilder :=
  let (local_false, pb1) := pb.allocate_label
  let pb2 := (translate_condition_expr sel hint lhs
    ⟨true, cm.jump_target_when_true, local_false⟩ pb1).1
  let pb3 := pb2.resolve_label local_false pb2.offset
  (translate_condition_expr sel hint rhs cm pb3).1

/-- The AST shapes the condition compiler leaves unimplemented: BETWEEN, the
IS and IS NOT operators, and the GLOB, MATCH and REGEXP like-operators. -/
def unsupported_shape : ast.Expr → Bool
  | ast.Expr.Between _ _ _ _ => true
  | ast.Expr.Binary _ ast.Operator.Is _ => true
  | ast.Expr.Binary _ ast.Operator.IsNot _ => true
  | ast.Expr.Like _ _ ast.LikeOperator.Glob _ _ => true
  | ast.Expr.Like _ _ ast.LikeOperator.Match _ _ => true
  | ast.Expr.Like _ _ ast.LikeOperator.Regexp _ _ => true
  | _ => false

/-- Whether a translation result is a modelled panic. -/
def TRes.is_panicked : TRes → Bool
  | TRes.panicked _ => true
  | _ => false

/-! Concrete sample data for witnesses and counterexamples -/

/-- A two-table select: t1 with column a at cursor 0, t2 with column b at
cursor 1. -/
def sel1 : Select :=
  { loops := [⟨"t1", 0, 100⟩, ⟨"t2", 1, 101⟩],
    src_tables := [⟨"t1", ["a"], none, false⟩, ⟨"t2", ["b"], none, false⟩],
    where_clause := none }

/-- An empty program builder. -/
def pb0 : ProgramBuilder := {}

/-- A two-column table used for the projection counterexample. -/
def tbl2 : BTreeTable := ⟨"t", ["a", "b"]⟩

/-- The numeric literal 1 as a condition expression. -/
def lit1 : ast.Expr := ast.Expr.Literal (ast.Literal.Numeric "1")

/-- The numeric literal 2 as a condition expression. -/
def lit2 : ast.Expr := ast.Expr.Literal (ast.Literal.Numeric "2")

/-! Shared lemmas about the splitter -/

/-- A non-AND expression is its own single AND-leaf. -/
theorem and_leaves_eq_singleton (e : ast.Expr)
    (hne : ∀ l r : ast.Expr, e = ast.Expr.Binary l ast.Operator.And r → False) :
    and_leaves e = [e] := by
  cases e with
  | Binary l op r =>
      cases op
      case And => exact absurd rfl (hne l r)
      all_goals rfl
  | Id _ => rfl
  | Qualified _ _ => rfl
  | Literal _ => rfl
  | Like _ _ _ _ _ => rfl
  | FunctionCall _ _ => rfl
  | InList _ _ _ => rfl
  | Between _ _ _ _ => rfl

/-- Every term produced by the splitter worklist either was already in the
accumulator or carries the cursor computed for its expression. -/
theorem split_go_mem (sel : Select) (outer : Option String) :
    ∀ st acc res, split_go sel outer st acc = Except.ok res →
      ∀ t ∈ res, t ∈ acc ∨
        where_term_cursor sel outer t.expr = Except.ok t.evaluate_at_cursor := by
  intro st acc
  induction st, acc using split_go.induct sel outer with
  | case1 acc =>
      intro res h t ht
      simp only [split_go, Except.ok.injEq] at h
      subst h
      exact Or.inl ht
  | case2 l r rest acc ih =>
      intro res h t ht
      simp only [split_go] at h
      exact ih res h t ht
  | case3 e rest acc hne msg hcur =>
      intro res h t ht
      simp only [split_go, hne, hcur] at h
      exact Except.noConfusion h
  | case4 e rest acc hne c hcur ih =>
      intro res h t ht
      simp only [split_go, hne, hcur] at h
      rcases ih res h t ht with hacc | hok
      · rcases List.mem_append.mp hacc with h1 | h2
        · exact Or.inl h1
        · right
          rcases List.mem_singleton.mp h2 with rfl
          exact hcur
      · exact Or.inr hok

/-- The expressions of the terms produced by the splitter worklist: the
accumulator followed by the reversed AND-leaves of each stacked expression,
topmost first. -/
theorem split_go_exprs (sel : Select) (outer : Option String) :
    ∀ st acc res, split_go sel outer st acc = Except.ok res →
      res.map WhereTerm.expr =
        acc.map WhereTerm.expr ++
          (st.map (fun x => (and_leaves x).reverse)).flatten := by
  intro st acc
  induction st, acc using split_go.induct sel outer with
  | case1 acc =>
      intro res h
      simp only [split_go, Except.ok.injEq] at h
      subst h
      simp
  | case2 l r rest acc ih =>
      intro res h
      simp only [split_go] at h
      have := ih res h
      simp only [this, and_leaves, List.map_cons, List.flatten_cons,
        List.reverse_append, List.append_assoc]
  | case3 e rest acc hne msg hcur =>
      intro res h
      simp only [split_go, hne, hcur] at h
      exact Except.noConfusion h
  | case4 e rest acc hne c hcur ih =>
      intro res h
      simp only [split_go, hne, hcur] at h
      have := ih res h
      simp only [this, List.map_append, List.map_cons, List.map_nil,
        List.flatten_cons, List.append_assoc, and_leaves_eq_singleton e hne,
        List.reverse_cons, List.reverse_nil, List.nil_append,
        List.singleton_append]

/-- Unfolding of the inner (non-outer-join) cursor computation on success. -/
theorem where_term_cursor_none_cases (sel : Select) (e : ast.Expr) (c : Nat)
    (h : where_term_cursor sel none e = Except.ok c) :
    ∃ cs, introspect_expression_for_cursors sel e = Except.ok cs ∧
      (cs.max? = some c ∨
        (cs = [] ∧
          (sel.loops.map (fun l => l.open_cursor)).min? = some c)) := by
  simp only [where_term_cursor] at h
  cases hin : introspect_expression_for_cursors sel e with
  | error msg => rw [hin] at h; exact Except.noConfusion h
  | ok cs =>
      rw [hin] at h
      cases hmin : (sel.loops.map (fun t => t.open_cursor)).min? with
      | none => rw [hmin] at h; exact Except.noConfusion h
      | some m =>
          rw [hmin] at h
          refine ⟨cs, rfl, ?_⟩
          cases cs with
          | nil =>
              right
              simp only [List.max?_nil, Option.getD_none, Except.ok.injEq] at h
              rw [← h]
              exact ⟨rfl, rfl⟩
          | cons a as =>
              left
              simp only [List.max?_cons, Option.getD_some, Except.ok.injEq] at h
              rw [← h]
              simp [List.max?_cons]

/-- Unfolding of the outer-join cursor computation on success. -/
theorem where_term_cursor_some_cases (sel : Select) (tb : String) (e : ast.Expr)
    (c : Nat) (h : where_term_cursor sel (some tb) e = Except.ok c) :
    ∃ l, sel.loops.find? (fun lo => lo.identifier == tb) = some l ∧
      c = l.open_cursor := by
  simp only [where_term_cursor] at h
  cases hf : sel.loops.find? (fun lo => lo.identifier == tb) with
  | none => rw [hf] at h; exact Except.noConfusion h
  | some l =>
      rw [hf] at h
      cases h
      exact ⟨l, rfl, rfl⟩

/-- Success of split_constraint_to_terms comes from success of the worklist. -/
theorem split_constraint_to_terms_ok (sel : Select) (pwc : ProcessedWhereClause)
    (e : ast.Expr) (outer : Option String) (pwc2 : ProcessedWhereClause)
    (h : split_constraint_to_terms sel pwc e outer = Except.ok pwc2) :
    split_go sel outer [e] pwc.terms = Except.ok pwc2.terms := by
  unfold split_constraint_to_terms at h
  cases hgo : split_go sel outer [e] pwc.terms with
  | error msg =>
      rw [hgo] at h
      cases h
  | ok ts =>
      rw [hgo] at h
      cases h
      rfl

/-! Claim theorems -/

/-- C1: for every WHERE-clause or INNER-join-ON term processed by
split_constraint_to_terms with outer_join_table_name none, the term's
evaluate_at_cursor equals the maximum cursor id among the cursors referenced
by the term's expression, and when the expression references no cursors it
equals the minimum open_cursor over all loops of the select. -/
theorem inner_term_placement (sel : Select) (pwc : ProcessedWhereClause)
    (e : ast.Expr) (pwc2 : ProcessedWhereClause) (t : WhereTerm)
    (h : split_constraint_to_terms sel pwc e none = Except.ok pwc2)
    (ht : t ∈ pwc2.terms) :
    t ∈ pwc.terms ∨
      ∃ cs, introspect_expression_for_cursors sel t.expr = Except.ok cs ∧
        (cs.max? = some t.evaluate_at_cursor ∨
          (cs = [] ∧ (sel.loops.map (fun l => l.open_cursor)).min? =
            some t.evaluate_at_cursor)) := by
  have hgo := split_constraint_to_terms_ok sel pwc e none pwc2 h
  rcases split_go_mem sel none [e] pwc.terms pwc2.terms hgo t ht with hacc | hok
  · exact Or.inl hacc
  · exact Or.inr (where_term_cursor_none_cases sel t.expr t.evaluate_at_cursor hok)

/-- Witness for C1: a constant predicate references no cursors and is placed
at the minimum open cursor of the sample select, cursor 0. -/
theorem inner_term_placement_witness :
    (⟨lit1, 0⟩ : WhereTerm) ∈ (⟨[]⟩ : ProcessedWhereClause).terms ∨
      ∃ cs, introspect_expression_for_cursors sel1 lit1 = Except.ok cs ∧
        (cs.max? = some 0 ∨
          (cs = [] ∧ (sel1.loops.map (fun l => l.open_cursor)).min? = some 0)) :=
  inner_term_placement sel1 ⟨[]⟩ lit1 ⟨[⟨lit1, 0⟩]⟩ ⟨lit1, 0⟩
    (by
      simp only [split_constraint_to_terms, lit1, split_go]
      rfl)
    (by simp)

/-- C2: for every ON-clause term of an OUTER join (split_constraint_to_terms
called with outer_join_table_name some alias), the term's evaluate_at_cursor
equals the open_cursor of the loop whose identifier equals that alias,
regardless of which tables the term's expression references. -/
theorem outer_term_placement (sel : Select) (pwc : ProcessedWhereClause)
    (e : ast.Expr) (tb : String) (pwc2 : ProcessedWhereClause) (t : WhereTerm)
    (h : split_constraint_to_terms sel pwc e (some tb) = Except.ok pwc2)
    (ht : t ∈ pwc2.terms) :
    t ∈ pwc.terms ∨
      ∃ l, sel.loops.find? (fun lo => lo.identifier == tb) = some l ∧
        t.evaluate_at_cursor = l.open_cursor := by
  have hgo := split_constraint_to_terms_ok sel pwc e (some tb) pwc2 h
  rcases split_go_mem sel (some tb) [e] pwc.terms pwc2.terms hgo t ht with hacc | hok
  · exact Or.inl hacc
  · exact Or.inr (where_term_cursor_some_cases sel tb t.expr t.evaluate_at_cursor hok)

/-- Witness for C2: a t1.a term of an outer-join ON clause for t2 is placed at
cursor 1, the cursor of the loop for t2, although it references only t1. -/
theorem outer_term_placement_witness :
    (⟨ast.Expr.Qualified "t1" "a", 1⟩ : WhereTerm) ∈
        (⟨[]⟩ : ProcessedWhereClause).terms ∨
      ∃ l, sel1.loops.find? (fun lo => lo.identifier == "t2") = some l ∧
        (1 : Nat) = l.open_cursor :=
  outer_term_placement sel1 ⟨[]⟩ (ast.Expr.Qualified "t1" "a") "t2"
    ⟨[⟨ast.Expr.Qualified "t1" "a", 1⟩]⟩ ⟨ast.Expr.Qualified "t1" "a", 1⟩
    (by
      simp only [split_constraint_to_terms, split_go, where_term_cursor, sel1,
        List.find?, (by decide : (("t1" : String) == "t2") = false),
        (by decide : (("t2" : String) == "t2") = true)]
      rfl)
    (by simp)

/-- C3: the multiset of WhereTerm expressions appended by
split_constraint_to_terms is exactly the multiset of AND-leaves of the input
expression, and the number of produced terms equals the number of leaves. -/
theorem split_and_completeness (sel : Select) (outer : Option String)
    (pwc : ProcessedWhereClause) (e : ast.Expr) (pwc2 : ProcessedWhereClause)
    (h : split_constraint_to_terms sel pwc e outer = Except.ok pwc2) :
    (pwc2.terms.map WhereTerm.expr).Perm
        (pwc.terms.map WhereTerm.expr ++ and_leaves e) ∧
      pwc2.terms.length = pwc.terms.length + (and_leaves e).length := by
  have hgo := split_constraint_to_terms_ok sel pwc e outer pwc2 h
  have hex := split_go_exprs sel outer [e] pwc.terms pwc2.terms hgo
  simp only [List.map_cons, List.map_nil, List.flatten_cons, List.flatten_nil,
    List.append_nil] at hex
  constructor
  · rw [hex]
    exact List.Perm.append_left _ (List.reverse_perm (and_leaves e))
  · have hlen := congrArg List.length hex
    simpa using hlen

/-- Witness for C3: splitting 1 AND 2 over the sample select yields two terms
whose expressions are a permutation of the two leaves. -/
theorem split_and_completeness_witness :
    ((⟨[⟨lit2, 0⟩, ⟨lit1, 0⟩]⟩ : ProcessedWhereClause).terms.map WhereTerm.expr).Perm
        ((⟨[]⟩ : ProcessedWhereClause).terms.map WhereTerm.expr ++
          and_leaves (ast.Expr.Binary lit1 ast.Operator.And lit2)) ∧
      (⟨[⟨lit2, 0⟩, ⟨lit1, 0⟩]⟩ : ProcessedWhereClause).terms.length =
        (⟨[]⟩ : ProcessedWhereClause).terms.length +
          (and_leaves (ast.Expr.Binary lit1 ast.Operator.And lit2)).length :=
  split_and_completeness sel1 none ⟨[]⟩
    (ast.Expr.Binary lit1 ast.Operator.And lit2) ⟨[⟨lit2, 0⟩, ⟨lit1, 0⟩]⟩
    (by
      simp only [split_constraint_to_terms, lit1, lit2, split_go]
      rfl)

/-- C4 counterexample: splitting 1 AND 2 pushes the term for the right
conjunct 2 first, so the leftmost conjunct is not the first term pushed. -/
theorem split_order_cex :
    split_constraint_to_terms sel1 ⟨[]⟩
        (ast.Expr.Binary lit1 ast.Operator.And lit2) none =
      Except.ok ⟨[⟨lit2, 0⟩, ⟨lit1, 0⟩]⟩ ∧
      and_leaves (ast.Expr.Binary lit1 ast.Operator.And lit2) = [lit1, lit2] ∧
      lit1 ≠ lit2 := by
  refine ⟨?_, rfl, ?_⟩
  · simp only [split_constraint_to_terms, lit1, lit2, split_go]
    rfl
  · intro hcontra
    simp only [lit1, lit2, ast.Expr.Literal.injEq, ast.Literal.Numeric.injEq] at hcontra
    exact absurd hcontra (by decide)

/-- C4 amended: the WhereTerms appended by split_constraint_to_terms appear in
ProcessedWhereClause.terms in the exact reverse of the user-visible
left-to-right order of the AND conjuncts (the rightmost conjunct is the first
term pushed). -/
theorem split_order_reversed (sel : Select) (outer : Option String)
    (pwc : ProcessedWhereClause) (e : ast.Expr) (pwc2 : ProcessedWhereClause)
    (h : split_constraint_to_terms sel pwc e outer = Except.ok pwc2) :
    pwc2.terms.map WhereTerm.expr =
      pwc.terms.map WhereTerm.expr ++ (and_leaves e).reverse := by
  have hgo := split_constraint_to_terms_ok sel pwc e outer pwc2 h
  have hex := split_go_exprs sel outer [e] pwc.terms pwc2.terms hgo
  simpa using hex

/-- Witness for C4 amended: the two terms of 1 AND 2 come out as 2 then 1. -/
theorem split_order_reversed_witness :
    (⟨[⟨lit2, 0⟩, ⟨lit1, 0⟩]⟩ : ProcessedWhereClause).terms.map WhereTerm.expr =
      (⟨[]⟩ : ProcessedWhereClause).terms.map WhereTerm.expr ++
        (and_leaves (ast.Expr.Binary lit1 ast.Operator.And lit2)).reverse :=
  split_order_reversed sel1 none ⟨[]⟩
    (ast.Expr.Binary lit1 ast.Operator.And lit2) ⟨[⟨lit2, 0⟩, ⟨lit1, 0⟩]⟩
    (by
      simp only [split_constraint_to_terms, lit1, lit2, split_go]
      rfl)

/-- Evaluating one comparison operand: the source translates the operand into
the register and marks the emitted instruction constant exactly when the
operand is a literal. -/
theorem translate_operand (sel : Select) (hint : Option Nat) (e : ast.Expr)
    (r : Nat) (pb : ProgramBuilder) :
    (match e with
     | ast.Expr.Literal _ => (translate_expr sel hint e r pb).mark_last_insn_constant
     | _ => translate_expr sel hint e r pb) =
      { pb with insns := pb.insns ++ [⟨Insn.EvalExpr e r, none, is_literal e⟩] } := by
  cases e <;>
    simp [translate_expr, ProgramBuilder.emit_insn,
      ProgramBuilder.mark_last_insn_constant, is_literal,
      List.dropLast_concat, List.getLast?_concat]

/-- C5: compiling a binary comparison emits the left operand evaluation into a
fresh register, the right operand evaluation into the next fresh register, and
one compare-and-branch instruction: the natural comparison targeting the true
label when jump_if_condition_is_true, otherwise the negated comparison (Gt
with Le, Ge with Lt, Eq with Ne interchanged) targeting the false label. -/
theorem comparison_emission (sel : Select) (hint : Option Nat)
    (lhs : ast.Expr) (op : ast.Operator) (rhs : ast.Expr)
    (cm : ConditionMetadata) (pb : ProgramBuilder) (ci : Insn)
    (h : comparison_insn op cm.jump_if_condition_is_true pb.next_reg
        (pb.next_reg + 1)
        (if cm.jump_if_condition_is_true then cm.jump_target_when_true
         else cm.jump_target_when_false) = some ci) :
    translate_condition_expr sel hint (ast.Expr.Binary lhs op rhs) cm pb =
      ({ pb with
          next_reg := pb.next_reg + 2,
          insns := pb.insns ++
            [⟨Insn.EvalExpr lhs pb.next_reg, none, is_literal lhs⟩,
             ⟨Insn.EvalExpr rhs (pb.next_reg + 1), none, is_literal rhs⟩,
             ⟨ci, some (if cm.jump_if_condition_is_true then cm.jump_target_when_true
               else cm.jump_target_when_false), false⟩] },
        TRes.ok) := by
  obtain ⟨flag, jt, jf⟩ := cm
  cases flag <;> cases op <;>
    simp only [comparison_insn, Option.some.injEq] at h <;>
    first
      | exact Option.noConfusion h
      | (subst h
         simp [translate_condition_expr, translate_operand,
           ProgramBuilder.alloc_register,
           ProgramBuilder.emit_insn_with_label_dependency, List.append_assoc]
         try omega)

/-- Witness for C5: compiling 1 > 2 with the flag off emits the two operand
evaluations into registers 0 and 1 followed by the negated comparison Le
targeting the false label 6. -/
theorem comparison_emission_witness :
    translate_condition_expr sel1 none
        (ast.Expr.Binary lit1 ast.Operator.Greater lit2) ⟨false, 5, 6⟩ pb0 =
      ({ pb0 with
          next_reg := 2,
          insns := [⟨Insn.EvalExpr lit1 0, none, is_literal lit1⟩,
            ⟨Insn.EvalExpr lit2 1, none, is_literal lit2⟩,
            ⟨Insn.Le 0 1 6, some 6, false⟩] }, TRes.ok) :=
  comparison_emission sel1 none lit1 ast.Operator.Greater lit2 ⟨false, 5, 6⟩ pb0
    (Insn.Le 0 1 6) rfl

/-- C6 amended: for an InList with an absent rhs list, after the lhs is
evaluated into a fresh register, x IN () emits an unconditional Goto to the
false target regardless of the jump_if_condition_is_true flag, while
x NOT IN () emits a Goto to the true target only when the flag is set and
otherwise emits no branch. -/
theorem in_list_empty_rhs (sel : Select) (hint : Option Nat) (lhs : ast.Expr)
    (nt : Bool) (cm : ConditionMetadata) (pb : ProgramBuilder) :
    translate_condition_expr sel hint (ast.Expr.InList lhs nt none) cm pb =
      ({ pb with
          next_reg := pb.next_reg + 1,
          insns := pb.insns ++ [⟨Insn.EvalExpr lhs pb.next_reg, none, false⟩] ++
            (if nt then
              (if cm.jump_if_condition_is_true then
                [⟨Insn.Goto cm.jump_target_when_true, some cm.jump_target_when_true,
                  false⟩]
               else [])
             else
              [⟨Insn.Goto cm.jump_target_when_false, some cm.jump_target_when_false,
                false⟩]) },
        TRes.ok) := by
  obtain ⟨flag, jt, jf⟩ := cm
  cases nt <;> cases flag <;>
    simp [translate_condition_expr, translate_expr, ProgramBuilder.alloc_register,
      ProgramBuilder.emit_insn, ProgramBuilder.emit_insn_with_label_dependency]

/-- C6 counterexample: for 1 IN () with jump_if_condition_is_true set, the
claim predicts fall-through with no branch, but the compiler emits an
unconditional Goto to the false target 6. -/
theorem in_list_empty_goto_cex :
    (translate_condition_expr sel1 none (ast.Expr.InList lit1 false none)
        ⟨true, 5, 6⟩ pb0).1.insns =
      [⟨Insn.EvalExpr lit1 0, none, false⟩, ⟨Insn.Goto 6, some 6, false⟩] := rfl

/-- C7: compiling a Binary OR allocates a fresh local false label, compiles
the left operand with jump_if_condition_is_true set, the caller's true target
and the local label as false target, resolves the local label at the current
offset, and compiles the right operand with the caller's metadata unchanged. -/
theorem or_compilation (sel : Select) (hint : Option Nat) (lhs rhs : ast.Expr)
    (cm : ConditionMetadata) (pb : ProgramBuilder)
    (h : ((translate_condition_expr sel hint lhs
        { cm with jump_if_condition_is_true := true,
                  jump_target_when_false := pb.next_label }
        { pb with next_label := pb.next_label + 1 }).2).is_panicked = false) :
    (translate_condition_expr sel hint
        (ast.Expr.Binary lhs ast.Operator.Or rhs) cm pb).1 =
      or_compile_spec sel hint lhs rhs cm pb := by
  simp only [translate_condition_expr, or_compile_spec, ProgramBuilder.allocate_label]
  rcases h2 : translate_condition_expr sel hint lhs
      { cm with jump_if_condition_is_true := true,
                jump_target_when_false := pb.next_label }
      { pb with next_label := pb.next_label + 1 } with ⟨pb2, r1⟩
  cases r1 with
  | panicked m =>
      rw [h2] at h
      simp [TRes.is_panicked] at h
  | ok =>
      rcases h3 : translate_condition_expr sel hint rhs cm
          (pb2.resolve_label pb.next_label pb2.offset) with ⟨pb4, r2⟩
      cases r2 <;> rfl
  | err m =>
      rcases h3 : translate_condition_expr sel hint rhs cm
          (pb2.resolve_label pb.next_label pb2.offset) with ⟨pb4, r2⟩
      cases r2 <;> rfl

/-- Witness for C7: an OR of two comparisons compiled with the flag off equals
the spec-side composition on the sample builder. -/
theorem or_compilation_witness :
    (translate_condition_expr sel1 none
        (ast.Expr.Binary (ast.Expr.Binary lit1 ast.Operator.Greater lit2)
          ast.Operator.Or (ast.Expr.Binary lit1 ast.Operator.Equals lit2))
        ⟨false, 5, 6⟩ pb0).1 =
      or_compile_spec sel1 none (ast.Expr.Binary lit1 ast.Operator.Greater lit2)
        (ast.Expr.Binary lit1 ast.Operator.Equals lit2) ⟨false, 5, 6⟩ pb0 :=
  or_compilation sel1 none (ast.Expr.Binary lit1 ast.Operator.Greater lit2)
    (ast.Expr.Binary lit1 ast.Operator.Equals lit2) ⟨false, 5, 6⟩ pb0 rfl

/-- C9 amended: on every unsupported shape (BETWEEN, IS, IS NOT, GLOB, MATCH,
REGEXP) translate_condition_expr panics with a not-implemented todo or failed
assertion, diverging instead of returning a recoverable error to the caller. -/
theorem unsupported_shape_panics (sel : Select) (hint : Option Nat)
    (e : ast.Expr) (cm : ConditionMetadata) (pb : ProgramBuilder)
    (h : unsupported_shape e = true) :
    ((translate_condition_expr sel hint e cm pb).2).is_panicked = true := by
  cases e with
  | Between lhs nt start stop => rfl
  | Binary lhs op rhs =>
      cases op <;> first | rfl | exact Bool.noConfusion h
  | Like lhs nt lop rhs escape =>
      cases lop with
      | Like => exact Bool.noConfusion h
      | Glob => cases rhs <;> rfl
      | Match => cases rhs <;> rfl
      | Regexp => cases rhs <;> rfl
  | Id name => exact Bool.noConfusion h
  | Qualified tbl name => exact Bool.noConfusion h
  | Literal lit => exact Bool.noConfusion h
  | FunctionCall name args => exact Bool.noConfusion h
  | InList lhs nt rhs => exact Bool.noConfusion h

/-- C9 counterexample: at a concrete BETWEEN expression the compiler panics
(the todo placeholder), so no not-implemented error value reaches the caller. -/
theorem between_panics_cex :
    (translate_condition_expr sel1 none
        (ast.Expr.Between lit1 false lit1 lit2) ⟨false, 5, 6⟩ pb0).2 =
      TRes.panicked "not yet implemented" := rfl

/-- Witness for C9 amended: 1 IS 2 panics. -/
theorem unsupported_shape_panics_witness :
    ((translate_condition_expr sel1 none
        (ast.Expr.Binary lit1 ast.Operator.Is lit2) ⟨false, 5, 6⟩ pb0).2).is_panicked =
      true :=
  unsupported_shape_panics sel1 none (ast.Expr.Binary lit1 ast.Operator.Is lit2)
    ⟨false, 5, 6⟩ pb0 rfl

/-- C8: for a bare identifier the bitmask analysis either contributes exactly
the bit of the unique matching table position, or fails with the
column-not-found parse error when no table matches, or fails with the
ambiguous-column parse error when more than one matches; it never silently
contributes zero bits. -/
theorem bitmask_id_trichotomy (tables : List (BTreeTable × String))
    (ident0 : String) :
    get_table_ref_bitmask_for_ast_expr tables (ast.Expr.Id ident0) =
      (match (tables.enum).filter
          (fun p => (p.2.1.get_column (normalize_ident ident0)).isSome) with
       | [] => Except.error ("column not found: " ++ normalize_ident ident0)
       | [p] => Except.ok (1 <<< p.1)
       | _ :: _ :: _ =>
          Except.error ("ambiguous column name " ++ normalize_ident ident0)) := by
  cases hf : (tables.enum).filter
      (fun p => (p.2.1.get_column (normalize_ident ident0)).isSome) with
  | nil => simp [get_table_ref_bitmask_for_ast_expr, hf, bitmask_id_loop]
  | cons p rest =>
      cases rest with
      | nil => simp [get_table_ref_bitmask_for_ast_expr, hf, bitmask_id_loop]
      | cons q rest2 =>
          simp [get_table_ref_bitmask_for_ast_expr, hf, bitmask_id_loop]

/-- C10 counterexample: a Projection of a single Star over one two-column
referenced table reports one column name but a column count of two. -/
theorem projection_star_cardinality_cex :
    ((plan.Operator.Projection 1 plan.Operator.Nothing
        [plan.ProjectionColumn.Star]).column_names).map List.length = some 1 ∧
      (plan.Operator.Projection 1 plan.Operator.Nothing
        [plan.ProjectionColumn.Star]).column_count [(tbl2, "t")] = 2 :=
  ⟨rfl, rfl⟩

/-- C10 amended: for every Projection all of whose expressions are plain
Column entries (no Star or TableStar), the length of column_names equals
column_count over any referenced-tables vector. -/
theorem projection_column_names_cardinality (refs : List (BTreeTable × String))
    (i : Nat) (src : plan.Operator) (exprs : List plan.ProjectionColumn)
    (h : ∀ e ∈ exprs, ∃ x, e = plan.ProjectionColumn.Column x) :
    ((plan.Operator.Projection i src exprs).column_names).map List.length =
      some ((plan.Operator.Projection i src exprs).column_count refs) := by
  induction exprs with
  | nil => simp [plan.Operator.column_names, plan.Operator.column_count]
  | cons e es ih =>
      obtain ⟨x, rfl⟩ := h e (List.mem_cons_self e es)
      have ih2 := ih (fun e2 he2 => h e2 (List.mem_cons_of_mem _ he2))
      simp only [plan.Operator.column_names, plan.Operator.column_count,
        Option.map_some', Option.some.injEq, List.length_map, List.map_cons,
        List.sum_cons, plan.ProjectionColumn.column_count, List.length_cons] at ih2 ⊢
      omega

/-- Witness for C10 amended: a single plain Column projection has one name and
column count one. -/
theorem projection_column_names_cardinality_witness :
    ((plan.Operator.Projection 1 plan.Operator.Nothing
        [plan.ProjectionColumn.Column (ast.Expr.Id "a")]).column_names).map
        List.length =
      some ((plan.Operator.Projection 1 plan.Operator.Nothing
        [plan.ProjectionColumn.Column (ast.Expr.Id "a")]).column_count
          [(tbl2, "t")]) :=
  projection_column_names_cardinality [(tbl2, "t")] 1 plan.Operator.Nothing
    [plan.ProjectionColumn.Column (ast.Expr.Id "a")]
    (by
      intro e he
      rcases List.mem_singleton.mp he with rfl
      exact ⟨ast.Expr.Id "a", rfl⟩)

end Limbo
